import Mathlib

/-!
Verification of the backbone-extraction core of `reddit_cascade_processing`
(`disparity_filter.py`), shallowly embedded in Lean 4.

Node identifiers are strings (ordered lexicographically, as Python's `sorted`
orders them); edge weights are embedded as rationals, standing for the exact
values of the numeric weights the code manipulates.  A pandas `DataFrame` of
edges is embedded as a `List Row`; the Python `set` of backbone tuples is a
`Finset` of `(source, target, weight)` triples.
-/

namespace RedditCascade

/-- One row of the weighted edge list: columns `source`, `target`, `weight`. -/
structure Row where
  source : String
  target : String
  weight : ℚ
deriving DecidableEq, Repr

/-- A backbone record `(source, target, weight)` as produced by
`process_node_ncdf` (a member of the Python `set` of tuples). -/
abbrev BEdge := String × String × ℚ

/-- `tuple(sorted((u, v)))` together with the weight: the canonical
(sorted) node-pair key of an edge. -/
def canonEdge (u v : String) (w : ℚ) : BEdge :=
  if u ≤ v then (u, v, w) else (v, u, w)

/-- `calculate_ncdf_alpha` (disparity_filter.py lines 8-13): alpha of the
Noise Corrected Disparity Filter, `1 - (1 - w/W) ^ (k - 1)`, with the
edge-case guard `k < 2 or W == 0 -> 1.0`. -/
def calculate_ncdf_alpha (weight total_weight : ℚ) (degree : ℕ) : ℚ :=
  if degree < 2 ∨ total_weight = 0 then 1
  else 1 - (1 - weight / total_weight) ^ (degree - 1)

/-- The rows incident to `node`
(`edgelist_df[(edgelist_df.source == node) | (edgelist_df.target == node)]`,
line 29). -/
def neighborRows (node : String) (edgelist : List Row) : List Row :=
  edgelist.filter (fun r => r.source == node || r.target == node)

/-- `degree = len(neighbors_df)` (line 34). -/
def nodeDegree (node : String) (edgelist : List Row) : ℕ :=
  (neighborRows node edgelist).length

/-- `total_weight = neighbors_df.weight.sum()` (line 35). -/
def nodeTotalWeight (node : String) (edgelist : List Row) : ℚ :=
  ((neighborRows node edgelist).map Row.weight).sum

/-- `process_node_ncdf` (lines 15-56): the NCDF filter applied to the edges
incident to a single node; returns the set of retained `(u, v, weight)`
triples keyed by the sorted node pair. -/
def process_node_ncdf (node : String) (edgelist : List Row)
    (alpha_threshold : ℚ) : Finset BEdge :=
  if neighborRows node edgelist = [] then ∅
  else if nodeTotalWeight node edgelist = 0 ∨ nodeDegree node edgelist < 2 then ∅
  else
    ((neighborRows node edgelist).filter
        (fun r => decide (calculate_ncdf_alpha r.weight
          (nodeTotalWeight node edgelist) (nodeDegree node edgelist)
            < alpha_threshold))).foldl
      (fun s r => insert (canonEdge r.source r.target r.weight) s) ∅

/-- `pd.concat([edgelist_df.source, edgelist_df.target]).unique()` (line 71):
the unique nodes of the edge list. -/
def uniqueNodes (edgelist : List Row) : List String :=
  (edgelist.map Row.source ++ edgelist.map Row.target).dedup

/-- The merge loop of lines 79-82: a plain set union of the per-node
candidate sets, in list order. -/
def mergeResults (rs : List (Finset BEdge)) : Finset BEdge :=
  rs.foldl (· ∪ ·) ∅

/-- `disparity_filter_ncdf_parallel` (lines 58-87): map `process_node_ncdf`
over every unique node and union the results.  `num_processes` only sizes
the worker pool; `pool.starmap` preserves the data, so the output set does
not depend on it. -/
def disparity_filter_ncdf_parallel (edgelist : List Row)
    (alpha_threshold : ℚ) (num_processes : Option ℕ) : Finset BEdge :=
  mergeResults ((uniqueNodes edgelist).map
    (fun node => process_node_ncdf node edgelist alpha_threshold))

/-- Modelled from the spec: the plain Disparity Filter statistic
`alpha = p ^ (k - 1)` of section 4.2, with the same edge-case guard
(`k < 2` or `W == 0` gives `alpha = 1.0`).  The function
`disparity_filter_parallel` that uses it is called by
`compute_backbone_network` (line 121) but is not defined in the
repository sources. -/
def calculate_disparity_alpha (weight total_weight : ℚ) (degree : ℕ) : ℚ :=
  if degree < 2 ∨ total_weight = 0 then 1
  else (weight / total_weight) ^ (degree - 1)

/-- Modelled from the spec: the per-node evaluator of sections 4.2-4.3 with
the Disparity Filter statistic — for each incident edge compute alpha from
this node's degree and total weight, retain it iff `alpha < alpha_threshold`,
and key retained edges by the canonical sorted pair.  Mirrors the structure
of `process_node_ncdf`, which the spec says both policies share. -/
def process_node_disparity (node : String) (edgelist : List Row)
    (alpha_threshold : ℚ) : Finset BEdge :=
  if neighborRows node edgelist = [] then ∅
  else if nodeTotalWeight node edgelist = 0 ∨ nodeDegree node edgelist < 2 then ∅
  else
    ((neighborRows node edgelist).filter
        (fun r => decide (calculate_disparity_alpha r.weight
          (nodeTotalWeight node edgelist) (nodeDegree node edgelist)
            < alpha_threshold))).foldl
      (fun s r => insert (canonEdge r.source r.target r.weight) s) ∅

/-- Modelled from the spec: `disparity_filter_parallel`, the Disparity
Filter counterpart of `disparity_filter_ncdf_parallel` (sections 4.4-4.5) —
evaluate every unique node and merge by set union over canonical keys.
Missing from the repository sources; only its call site exists (line 121). -/
def disparity_filter_parallel (edgelist : List Row)
    (alpha_threshold : ℚ) (num_processes : Option ℕ) : Finset BEdge :=
  mergeResults ((uniqueNodes edgelist).map
    (fun node => process_node_disparity node edgelist alpha_threshold))

/-- The result of `pd.read_csv` abstracted: either a failure (file not
found, or any other reading exception, lines 113-118) or a frame carrying
its column names and its typed rows. -/
structure CsvFrame where
  columns : List String
  rows : List Row
deriving DecidableEq, Repr

/-- The value `compute_backbone_network` hands back: the backbone as a set
of records, plus the diagnostic message printed on the error paths
(`none` when the computation ran). -/
structure BackboneOutput where
  backbone : Finset BEdge
  diagnostic : Option String
deriving DecidableEq

/-- The three required column names (line 107). -/
def requiredColumns : List String := ["source", "target", "weight"]

/-- `compute_backbone_network` (lines 89-128): validate the read frame,
dispatch on `filter_type`, and return an empty result with a diagnostic on
every error path instead of raising. -/
def compute_backbone_network :
    Except String CsvFrame → ℚ → Option ℕ → String → BackboneOutput
  | .error e, _, _, _ =>
      ⟨∅, some ("An error occurred while reading the CSV file: " ++ e)⟩
  | .ok df, alpha, num_processes, filter_type =>
      if ¬ requiredColumns.all (fun c => df.columns.contains c) then
        ⟨∅, some "Error: CSV file must contain columns source, target, and weight."⟩
      else if df.rows = [] then
        ⟨∅, some "Warning: Input CSV file is empty."⟩
      else if filter_type = "disparity" then
        ⟨disparity_filter_parallel df.rows alpha num_processes, none⟩
      else if filter_type = "ncdf" then
        ⟨disparity_filter_ncdf_parallel df.rows alpha num_processes, none⟩
      else
        ⟨∅, some ("Error: Unknown filter type " ++ filter_type ++ ".")⟩

/-- Two rows denote the same unordered node pair (the undirected-graph
identification of `(u, v)` with `(v, u)`). -/
def samePair (r r' : Row) : Prop :=
  (r.source = r'.source ∧ r.target = r'.target) ∨
  (r.source = r'.target ∧ r.target = r'.source)

instance (r r' : Row) : Decidable (samePair r r') := by
  unfold samePair; infer_instance

/-! ### Helper lemmas -/

lemma canonEdge_eq_or (u v : String) (w : ℚ) :
    canonEdge u v w = (u, v, w) ∨ canonEdge u v w = (v, u, w) := by
  unfold canonEdge; split <;> simp

lemma canonEdge_weight (u v : String) (w : ℚ) : (canonEdge u v w).2.2 = w := by
  unfold canonEdge; split <;> rfl

lemma canonEdge_fst_le_snd (u v : String) (w : ℚ) :
    (canonEdge u v w).1 ≤ (canonEdge u v w).2.1 := by
  unfold canonEdge; split
  · simpa using ‹u ≤ v›
  · simpa using le_of_not_le ‹¬ u ≤ v›

lemma canonEdge_inv {u v : String} {w : ℚ} {e : BEdge}
    (h : canonEdge u v w = e) :
    ((e.1 = u ∧ e.2.1 = v) ∨ (e.1 = v ∧ e.2.1 = u)) ∧ e.2.2 = w := by
  rcases canonEdge_eq_or u v w with h' | h' <;> rw [h'] at h <;> subst h <;> simp

lemma mem_foldl_insert (f : Row → BEdge) :
    ∀ (l : List Row) (s : Finset BEdge) (x : BEdge),
      x ∈ l.foldl (fun acc r => insert (f r) acc) s ↔ x ∈ s ∨ ∃ r ∈ l, f r = x := by
  intro l
  induction l with
  | nil => intro s x; simp
  | cons a tl ih =>
      intro s x
      simp only [List.foldl_cons, ih, Finset.mem_insert, List.mem_cons]
      constructor
      · rintro ((h | h) | ⟨r, hr, h⟩)
        · exact Or.inr ⟨a, Or.inl rfl, h.symm⟩
        · exact Or.inl h
        · exact Or.inr ⟨r, Or.inr hr, h⟩
      · rintro (h | ⟨r, (rfl | hr), h⟩)
        · exact Or.inl (Or.inr h)
        · exact Or.inl (Or.inl h.symm)
        · exact Or.inr ⟨r, hr, h⟩

lemma mem_foldl_union (rs : List (Finset BEdge)) :
    ∀ (acc : Finset BEdge) (x : BEdge),
      x ∈ rs.foldl (· ∪ ·) acc ↔ x ∈ acc ∨ ∃ s ∈ rs, x ∈ s := by
  induction rs with
  | nil => intro acc x; simp
  | cons a tl ih =>
      intro acc x
      simp only [List.foldl_cons, ih, Finset.mem_union, List.mem_cons]
      constructor
      · rintro ((h | h) | ⟨s, hs, h⟩)
        · exact Or.inl h
        · exact Or.inr ⟨a, Or.inl rfl, h⟩
        · exact Or.inr ⟨s, Or.inr hs, h⟩
      · rintro (h | ⟨s, (rfl | hs), h⟩)
        · exact Or.inl (Or.inl h)
        · exact Or.inl (Or.inr h)
        · exact Or.inr ⟨s, hs, h⟩

lemma mem_mergeResults (rs : List (Finset BEdge)) (x : BEdge) :
    x ∈ mergeResults rs ↔ ∃ s ∈ rs, x ∈ s := by
  simp [mergeResults, mem_foldl_union]

lemma mergeResults_perm {rs rs' : List (Finset BEdge)} (h : rs.Perm rs') :
    mergeResults rs = mergeResults rs' := by
  ext x
  simp only [mem_mergeResults]
  constructor <;> rintro ⟨s, hs, hx⟩
  · exact ⟨s, h.mem_iff.mp hs, hx⟩
  · exact ⟨s, h.mem_iff.mpr hs, hx⟩

lemma mem_neighborRows {r : Row} {node : String} {l : List Row} :
    r ∈ neighborRows node l ↔ r ∈ l ∧ (r.source = node ∨ r.target = node) := by
  simp [neighborRows, List.mem_filter]

lemma mem_uniqueNodes {x : String} {l : List Row} :
    x ∈ uniqueNodes l ↔ ∃ r ∈ l, r.source = x ∨ r.target = x := by
  simp only [uniqueNodes, List.mem_dedup, List.mem_append, List.mem_map]
  constructor
  · rintro (⟨r, hr, h⟩ | ⟨r, hr, h⟩)
    · exact ⟨r, hr, Or.inl h⟩
    · exact ⟨r, hr, Or.inr h⟩
  · rintro ⟨r, hr, h | h⟩
    · exact Or.inl ⟨r, hr, h⟩
    · exact Or.inr ⟨r, hr, h⟩

lemma nodeDegree_eq_zero_of_nil {node : String} {l : List Row}
    (h : neighborRows node l = []) : nodeDegree node l = 0 := by
  simp [nodeDegree, h]

lemma mem_process_node_ncdf {node : String} {l : List Row} {t : ℚ} {e : BEdge} :
    e ∈ process_node_ncdf node l t ↔
      nodeTotalWeight node l ≠ 0 ∧ 2 ≤ nodeDegree node l ∧
      ∃ r ∈ neighborRows node l,
        calculate_ncdf_alpha r.weight (nodeTotalWeight node l) (nodeDegree node l) < t ∧
        canonEdge r.source r.target r.weight = e := by
  unfold process_node_ncdf
  by_cases h1 : neighborRows node l = []
  · have hd := nodeDegree_eq_zero_of_nil h1
    simp [h1, hd]
  · rw [if_neg h1]
    by_cases h2 : nodeTotalWeight node l = 0 ∨ nodeDegree node l < 2
    · rw [if_pos h2]
      simp only [Finset.not_mem_empty, false_iff]
      rintro ⟨hW, hdeg, -⟩
      rcases h2 with h | h
      · exact hW h
      · omega
    · rw [if_neg h2]
      push_neg at h2
      rw [mem_foldl_insert]
      simp only [Finset.not_mem_empty, false_or, List.mem_filter,
        decide_eq_true_eq]
      constructor
      · rintro ⟨r, ⟨hr, ha⟩, hc⟩
        exact ⟨h2.1, by omega, r, hr, ha, hc⟩
      · rintro ⟨-, -, r, hr, ha, hc⟩
        exact ⟨r, ⟨hr, ha⟩, hc⟩

lemma mem_process_node_disparity {node : String} {l : List Row} {t : ℚ} {e : BEdge} :
    e ∈ process_node_disparity node l t ↔
      nodeTotalWeight node l ≠ 0 ∧ 2 ≤ nodeDegree node l ∧
      ∃ r ∈ neighborRows node l,
        calculate_disparity_alpha r.weight (nodeTotalWeight node l) (nodeDegree node l) < t ∧
        canonEdge r.source r.target r.weight = e := by
  unfold process_node_disparity
  by_cases h1 : neighborRows node l = []
  · have hd := nodeDegree_eq_zero_of_nil h1
    simp [h1, hd]
  · rw [if_neg h1]
    by_cases h2 : nodeTotalWeight node l = 0 ∨ nodeDegree node l < 2
    · rw [if_pos h2]
      simp only [Finset.not_mem_empty, false_iff]
      rintro ⟨hW, hdeg, -⟩
      rcases h2 with h | h
      · exact hW h
      · omega
    · rw [if_neg h2]
      push_neg at h2
      rw [mem_foldl_insert]
      simp only [Finset.not_mem_empty, false_or, List.mem_filter,
        decide_eq_true_eq]
      constructor
      · rintro ⟨r, ⟨hr, ha⟩, hc⟩
        exact ⟨h2.1, by omega, r, hr, ha, hc⟩
      · rintro ⟨-, -, r, hr, ha, hc⟩
        exact ⟨r, ⟨hr, ha⟩, hc⟩

lemma mem_ncdf_backbone {rows : List Row} {t : ℚ} {np : Option ℕ} {e : BEdge} :
    e ∈ disparity_filter_ncdf_parallel rows t np ↔
      ∃ node ∈ uniqueNodes rows, e ∈ process_node_ncdf node rows t := by
  simp only [disparity_filter_ncdf_parallel, mem_mergeResults, List.mem_map]
  constructor
  · rintro ⟨s, ⟨n, hn, rfl⟩, hx⟩
    exact ⟨n, hn, hx⟩
  · rintro ⟨n, hn, hx⟩
    exact ⟨_, ⟨n, hn, rfl⟩, hx⟩

lemma mem_disparity_backbone {rows : List Row} {t : ℚ} {np : Option ℕ} {e : BEdge} :
    e ∈ disparity_filter_parallel rows t np ↔
      ∃ node ∈ uniqueNodes rows, e ∈ process_node_disparity node rows t := by
  simp only [disparity_filter_parallel, mem_mergeResults, List.mem_map]
  constructor
  · rintro ⟨s, ⟨n, hn, rfl⟩, hx⟩
    exact ⟨n, hn, hx⟩
  · rintro ⟨n, hn, hx⟩
    exact ⟨_, ⟨n, hn, rfl⟩, hx⟩

lemma ncdf_backbone_row {rows : List Row} {t : ℚ} {np : Option ℕ} {e : BEdge}
    (he : e ∈ disparity_filter_ncdf_parallel rows t np) :
    ∃ r ∈ rows, canonEdge r.source r.target r.weight = e := by
  rcases mem_ncdf_backbone.mp he with ⟨n, -, hp⟩
  rcases (mem_process_node_ncdf.mp hp) with ⟨-, -, r, hr, -, hc⟩
  exact ⟨r, (mem_neighborRows.mp hr).1, hc⟩

lemma disparity_backbone_row {rows : List Row} {t : ℚ} {np : Option ℕ} {e : BEdge}
    (he : e ∈ disparity_filter_parallel rows t np) :
    ∃ r ∈ rows, canonEdge r.source r.target r.weight = e := by
  rcases mem_disparity_backbone.mp he with ⟨n, -, hp⟩
  rcases (mem_process_node_disparity.mp hp) with ⟨-, -, r, hr, -, hc⟩
  exact ⟨r, (mem_neighborRows.mp hr).1, hc⟩

/-! ### Claim theorems -/

/-- Claim C2: `calculate_ncdf_alpha w W k` returns 1 when `k < 2` or `W = 0`
and `1 - (1 - w/W) ^ (k - 1)` otherwise, and under the precondition
`0 ≤ w ≤ W` the returned value always lies in `[0, 1]`. -/
theorem calculate_ncdf_alpha_spec (w W : ℚ) (k : ℕ) (h0 : 0 ≤ w) (h1 : w ≤ W) :
    calculate_ncdf_alpha w W k
        = (if k < 2 ∨ W = 0 then 1 else 1 - (1 - w / W) ^ (k - 1)) ∧
    0 ≤ calculate_ncdf_alpha w W k ∧ calculate_ncdf_alpha w W k ≤ 1 := by
  refine ⟨rfl, ?_⟩
  unfold calculate_ncdf_alpha
  split
  · norm_num
  · rename_i h
    push_neg at h
    have hW : 0 < W := lt_of_le_of_ne (le_trans h0 h1) (Ne.symm h.2)
    have hp0 : 0 ≤ w / W := div_nonneg h0 hW.le
    have hp1 : w / W ≤ 1 := div_le_one_of_le₀ h1 hW.le
    have hx0 : 0 ≤ (1 - w / W) ^ (k - 1) := pow_nonneg (by linarith) _
    have hx1 : (1 - w / W) ^ (k - 1) ≤ 1 := pow_le_one₀ (by linarith) (by linarith)
    constructor <;> linarith

/-- Witness for C2 at `w = 1`, `W = 2`, `k = 3`. -/
theorem calculate_ncdf_alpha_spec_witness :
    (0 : ℚ) ≤ 1 ∧ (1 : ℚ) ≤ 2 ∧
    (calculate_ncdf_alpha 1 2 3
        = (if 3 < 2 ∨ (2 : ℚ) = 0 then 1 else 1 - (1 - 1 / 2) ^ (3 - 1)) ∧
      0 ≤ calculate_ncdf_alpha 1 2 3 ∧ calculate_ncdf_alpha 1 2 3 ≤ 1) :=
  ⟨by decide, by decide, calculate_ncdf_alpha_spec 1 2 3 (by decide) (by decide)⟩

/-- Claim C6: a node of degree below 2, or with zero total incident weight,
contributes zero candidate edges, for every threshold and in either policy
(the functions are total, so no exception can arise). -/
theorem process_node_low_degree_empty (node : String) (rows : List Row) (t : ℚ)
    (h : nodeDegree node rows < 2 ∨ nodeTotalWeight node rows = 0) :
    process_node_ncdf node rows t = ∅ ∧ process_node_disparity node rows t = ∅ := by
  refine ⟨Finset.eq_empty_of_forall_not_mem ?_, Finset.eq_empty_of_forall_not_mem ?_⟩
  · intro e he
    rcases mem_process_node_ncdf.mp he with ⟨hW, hdeg, -⟩
    rcases h with h | h
    · omega
    · exact hW h
  · intro e he
    rcases mem_process_node_disparity.mp he with ⟨hW, hdeg, -⟩
    rcases h with h | h
    · omega
    · exact hW h

/-- Witness for C6: the node `b` of the single-edge graph has degree 1. -/
theorem process_node_low_degree_empty_witness :
    (nodeDegree "b" [⟨"a", "b", 7⟩] < 2 ∨ nodeTotalWeight "b" [⟨"a", "b", 7⟩] = 0) ∧
    (process_node_ncdf "b" [⟨"a", "b", 7⟩] (1/2) = ∅ ∧
      process_node_disparity "b" [⟨"a", "b", 7⟩] (1/2) = ∅) :=
  ⟨Or.inl (by decide), process_node_low_degree_empty "b" [⟨"a", "b", 7⟩] (1/2)
    (Or.inl (by decide))⟩

/-- Claim C7: for a fixed edge list and policy the backbone is monotone in
the threshold — every edge kept at `t1 ≤ t2` is also kept at `t2`. -/
theorem backbone_monotone_threshold (rows : List Row) (t1 t2 : ℚ) (np : Option ℕ)
    (h : t1 ≤ t2) :
    disparity_filter_ncdf_parallel rows t1 np ⊆ disparity_filter_ncdf_parallel rows t2 np ∧
    disparity_filter_parallel rows t1 np ⊆ disparity_filter_parallel rows t2 np := by
  constructor
  · intro e he
    rcases mem_ncdf_backbone.mp he with ⟨n, hn, hp⟩
    rcases mem_process_node_ncdf.mp hp with ⟨hW, hdeg, r, hr, ha, hc⟩
    exact mem_ncdf_backbone.mpr
      ⟨n, hn, mem_process_node_ncdf.mpr ⟨hW, hdeg, r, hr, lt_of_lt_of_le ha h, hc⟩⟩
  · intro e he
    rcases mem_disparity_backbone.mp he with ⟨n, hn, hp⟩
    rcases mem_process_node_disparity.mp hp with ⟨hW, hdeg, r, hr, ha, hc⟩
    exact mem_disparity_backbone.mpr
      ⟨n, hn, mem_process_node_disparity.mpr ⟨hW, hdeg, r, hr, lt_of_lt_of_le ha h, hc⟩⟩

/-- Witness for C7 on the three-edge star graph with thresholds 1/10 ≤ 1/5. -/
theorem backbone_monotone_threshold_witness :
    (1 : ℚ)/10 ≤ 1/5 ∧
    (disparity_filter_ncdf_parallel
        [⟨"a", "b", 1⟩, ⟨"a", "c", 1⟩, ⟨"a", "d", 8⟩] (1/10) none ⊆
      disparity_filter_ncdf_parallel
        [⟨"a", "b", 1⟩, ⟨"a", "c", 1⟩, ⟨"a", "d", 8⟩] (1/5) none ∧
      disparity_filter_parallel
        [⟨"a", "b", 1⟩, ⟨"a", "c", 1⟩, ⟨"a", "d", 8⟩] (1/10) none ⊆
      disparity_filter_parallel
        [⟨"a", "b", 1⟩, ⟨"a", "c", 1⟩, ⟨"a", "d", 8⟩] (1/5) none) :=
  ⟨by with_unfolding_all decide,
    backbone_monotone_threshold [⟨"a", "b", 1⟩, ⟨"a", "c", 1⟩, ⟨"a", "d", 8⟩]
      (1/10) (1/5) none (by with_unfolding_all decide)⟩

/-- Claim C10: every record of either emitted backbone has its node pair in
canonical sorted order under the lexicographic order on node strings. -/
theorem backbone_canonical_sorted (rows : List Row) (t : ℚ) (np : Option ℕ)
    (e : BEdge)
    (h : e ∈ disparity_filter_ncdf_parallel rows t np ∨
      e ∈ disparity_filter_parallel rows t np) :
    e.1 ≤ e.2.1 := by
  rcases h with he | he
  · rcases ncdf_backbone_row he with ⟨r, -, hc⟩
    rw [← hc]
    exact canonEdge_fst_le_snd _ _ _
  · rcases disparity_backbone_row he with ⟨r, -, hc⟩
    rw [← hc]
    exact canonEdge_fst_le_snd _ _ _

/-- Witness for C10: a backbone record produced from the reversed input
orientation `(b, a)` still comes out as the sorted pair `(a, b)`. -/
theorem backbone_canonical_sorted_witness :
    ("a", "b", (1 : ℚ)) ∈ disparity_filter_ncdf_parallel
        [⟨"b", "a", 1⟩, ⟨"c", "a", 1⟩, ⟨"d", "a", 8⟩] (1/5) none ∧
    ("a", "b", (1 : ℚ)).1 ≤ ("a", "b", (1 : ℚ)).2.1 :=
  ⟨by with_unfolding_all decide,
    backbone_canonical_sorted [⟨"b", "a", 1⟩, ⟨"c", "a", 1⟩, ⟨"d", "a", 8⟩]
      (1/5) none ("a", "b", 1) (Or.inl (by with_unfolding_all decide))⟩

/-- Claim C3: every backbone record, under either policy and any threshold,
stems from an input row: its node pair is that row's `{source, target}` pair
and its weight is that row's weight, unchanged. -/
theorem backbone_subset_input (rows : List Row) (t : ℚ) (np : Option ℕ)
    (e : BEdge)
    (h : e ∈ disparity_filter_ncdf_parallel rows t np ∨
      e ∈ disparity_filter_parallel rows t np) :
    ∃ r ∈ rows,
      ((e.1 = r.source ∧ e.2.1 = r.target) ∨ (e.1 = r.target ∧ e.2.1 = r.source)) ∧
      e.2.2 = r.weight := by
  have hrow : ∃ r ∈ rows, canonEdge r.source r.target r.weight = e := by
    rcases h with he | he
    · exact ncdf_backbone_row he
    · exact disparity_backbone_row he
  rcases hrow with ⟨r, hr, hc⟩
  rcases canonEdge_inv hc with ⟨hp, hw⟩
  exact ⟨r, hr, hp, hw⟩

/-- Witness for C3: a concrete backbone record of the three-edge star graph
matches the input row it came from. -/
theorem backbone_subset_input_witness :
    ("a", "b", (1 : ℚ)) ∈ disparity_filter_ncdf_parallel
        [⟨"b", "a", 1⟩, ⟨"c", "a", 1⟩, ⟨"d", "a", 8⟩] (1/5) none ∧
    ∃ r ∈ [(⟨"b", "a", 1⟩ : Row), ⟨"c", "a", 1⟩, ⟨"d", "a", 8⟩],
      ((("a", "b", (1 : ℚ)).1 = r.source ∧ ("a", "b", (1 : ℚ)).2.1 = r.target) ∨
        (("a", "b", (1 : ℚ)).1 = r.target ∧ ("a", "b", (1 : ℚ)).2.1 = r.source)) ∧
      ("a", "b", (1 : ℚ)).2.2 = r.weight :=
  ⟨by with_unfolding_all decide,
    backbone_subset_input [⟨"b", "a", 1⟩, ⟨"c", "a", 1⟩, ⟨"d", "a", 8⟩]
      (1/5) none ("a", "b", 1) (Or.inl (by with_unfolding_all decide))⟩

/-- Claim C4: for fixed edges, threshold and policy, merging the per-node
partial results in any order yields the same backbone set, and the output
does not depend on the worker count, for either policy. -/
theorem backbone_deterministic (rows : List Row) (t : ℚ) (n₁ n₂ : Option ℕ)
    (order : List String) (h : order.Perm (uniqueNodes rows)) :
    mergeResults (order.map (fun node => process_node_ncdf node rows t))
        = disparity_filter_ncdf_parallel rows t n₁ ∧
    mergeResults (order.map (fun node => process_node_disparity node rows t))
        = disparity_filter_parallel rows t n₁ ∧
    disparity_filter_ncdf_parallel rows t n₁ = disparity_filter_ncdf_parallel rows t n₂ ∧
    disparity_filter_parallel rows t n₁ = disparity_filter_parallel rows t n₂ :=
  ⟨mergeResults_perm (h.map _), mergeResults_perm (h.map _), rfl, rfl⟩

/-- Witness for C4: merging the two nodes of a single-edge graph in reversed
order, and with different worker counts. -/
theorem backbone_deterministic_witness :
    (["b", "a"] : List String).Perm (uniqueNodes [⟨"a", "b", 1⟩]) ∧
    (mergeResults ((["b", "a"] : List String).map
          (fun node => process_node_ncdf node [⟨"a", "b", 1⟩] (1/2)))
        = disparity_filter_ncdf_parallel [⟨"a", "b", 1⟩] (1/2) (some 1) ∧
      mergeResults ((["b", "a"] : List String).map
          (fun node => process_node_disparity node [⟨"a", "b", 1⟩] (1/2)))
        = disparity_filter_parallel [⟨"a", "b", 1⟩] (1/2) (some 1) ∧
      disparity_filter_ncdf_parallel [⟨"a", "b", 1⟩] (1/2) (some 1)
        = disparity_filter_ncdf_parallel [⟨"a", "b", 1⟩] (1/2) (some 4) ∧
      disparity_filter_parallel [⟨"a", "b", 1⟩] (1/2) (some 1)
        = disparity_filter_parallel [⟨"a", "b", 1⟩] (1/2) (some 4)) :=
  ⟨by decide, backbone_deterministic [⟨"a", "b", 1⟩] (1/2) (some 1) (some 4)
    ["b", "a"] (by decide)⟩

/-- Claim C5: an input edge whose NCDF alpha is below the threshold as seen
from at least one endpoint appears in the backbone, and (on a simple graph,
where one unordered pair carries one weight) each canonical node pair occurs
in the backbone at most once. -/
theorem backbone_union_once (rows : List Row) (t : ℚ) (np : Option ℕ)
    (r : Row) (x : String)
    (hr : r ∈ rows) (hx : x = r.source ∨ x = r.target) (ht : t ≤ 1)
    (ha : calculate_ncdf_alpha r.weight (nodeTotalWeight x rows)
        (nodeDegree x rows) < t)
    (hsimple : ∀ r1 ∈ rows, ∀ r2 ∈ rows, samePair r1 r2 → r1.weight = r2.weight) :
    canonEdge r.source r.target r.weight ∈ disparity_filter_ncdf_parallel rows t np ∧
    ∀ e1 ∈ disparity_filter_ncdf_parallel rows t np,
      ∀ e2 ∈ disparity_filter_ncdf_parallel rows t np,
        e1.1 = e2.1 → e1.2.1 = e2.2.1 → e1 = e2 := by
  constructor
  · have hguard : ¬ (nodeDegree x rows < 2 ∨ nodeTotalWeight x rows = 0) := by
      intro hg
      have h1 : calculate_ncdf_alpha r.weight (nodeTotalWeight x rows)
          (nodeDegree x rows) = 1 := by
        unfold calculate_ncdf_alpha
        rw [if_pos hg]
      rw [h1] at ha
      linarith
    push_neg at hguard
    have hxu : x ∈ uniqueNodes rows := mem_uniqueNodes.mpr ⟨r, hr, by
      rcases hx with h | h
      · exact Or.inl h.symm
      · exact Or.inr h.symm⟩
    have hrn : r ∈ neighborRows x rows := mem_neighborRows.mpr ⟨hr, by
      rcases hx with h | h
      · exact Or.inl h.symm
      · exact Or.inr h.symm⟩
    exact mem_ncdf_backbone.mpr ⟨x, hxu, mem_process_node_ncdf.mpr
      ⟨hguard.2, by omega, r, hrn, ha, rfl⟩⟩
  · rintro ⟨a1, b1, w1⟩ he1 ⟨a2, b2, w2⟩ he2 h1 h2
    rcases ncdf_backbone_row he1 with ⟨r1, hr1, hc1⟩
    rcases ncdf_backbone_row he2 with ⟨r2, hr2, hc2⟩
    rcases canonEdge_inv hc1 with ⟨hp1, hw1⟩
    rcases canonEdge_inv hc2 with ⟨hp2, hw2⟩
    simp only at h1 h2 hp1 hp2 hw1 hw2
    have hsp : samePair r1 r2 := by
      rcases hp1 with ⟨ha1, hb1⟩ | ⟨ha1, hb1⟩ <;>
        rcases hp2 with ⟨ha2, hb2⟩ | ⟨ha2, hb2⟩
      · exact Or.inl ⟨ha1.symm.trans (h1.trans ha2), hb1.symm.trans (h2.trans hb2)⟩
      · exact Or.inr ⟨ha1.symm.trans (h1.trans ha2), hb1.symm.trans (h2.trans hb2)⟩
      · exact Or.inr ⟨hb1.symm.trans (h2.trans hb2), ha1.symm.trans (h1.trans ha2)⟩
      · exact Or.inl ⟨hb1.symm.trans (h2.trans hb2), ha1.symm.trans (h1.trans ha2)⟩
    have hw : w1 = w2 := by
      rw [hw1, hw2]
      exact hsimple r1 hr1 r2 hr2 hsp
    subst h1
    subst h2
    subst hw
    rfl

/-- Witness for C5 on the three-edge star graph: the edge `(a, b)` is
significant from `a` (alpha 19/100 < 1/5) though not from `b` (degree 1). -/
theorem backbone_union_once_witness :
    (⟨"a", "b", 1⟩ : Row) ∈ [(⟨"a", "b", 1⟩ : Row), ⟨"a", "c", 1⟩, ⟨"a", "d", 8⟩] ∧
    ("a" = (⟨"a", "b", (1 : ℚ)⟩ : Row).source ∨
      "a" = (⟨"a", "b", (1 : ℚ)⟩ : Row).target) ∧
    (1 : ℚ)/5 ≤ 1 ∧
    calculate_ncdf_alpha 1
        (nodeTotalWeight "a" [⟨"a", "b", 1⟩, ⟨"a", "c", 1⟩, ⟨"a", "d", 8⟩])
        (nodeDegree "a" [⟨"a", "b", 1⟩, ⟨"a", "c", 1⟩, ⟨"a", "d", 8⟩]) < 1/5 ∧
    (canonEdge "a" "b" 1 ∈ disparity_filter_ncdf_parallel
        [⟨"a", "b", 1⟩, ⟨"a", "c", 1⟩, ⟨"a", "d", 8⟩] (1/5) none ∧
      ∀ e1 ∈ disparity_filter_ncdf_parallel
          [⟨"a", "b", 1⟩, ⟨"a", "c", 1⟩, ⟨"a", "d", 8⟩] (1/5) none,
        ∀ e2 ∈ disparity_filter_ncdf_parallel
            [⟨"a", "b", 1⟩, ⟨"a", "c", 1⟩, ⟨"a", "d", 8⟩] (1/5) none,
          e1.1 = e2.1 → e1.2.1 = e2.2.1 → e1 = e2) :=
  ⟨by decide, Or.inl rfl, by with_unfolding_all decide,
    by with_unfolding_all decide,
    backbone_union_once [⟨"a", "b", 1⟩, ⟨"a", "c", 1⟩, ⟨"a", "d", 8⟩] (1/5) none
      ⟨"a", "b", 1⟩ "a" (by decide) (Or.inl rfl)
      (by with_unfolding_all decide) (by with_unfolding_all decide)
      (by with_unfolding_all decide)⟩

/-- Claim C1: with `filter_type = "disparity"` (the default) and a
well-formed input, `compute_backbone_network` computes the Disparity Filter
backbone, the statistic being `(w/W) ^ (k - 1)` compared against the
threshold from each node of degree `k ≥ 2` with total weight `W ≠ 0`
(engine modelled from the spec, see `disparity_filter_parallel`). -/
theorem compute_backbone_disparity (df : CsvFrame) (alpha : ℚ) (np : Option ℕ)
    (hcols : requiredColumns.all (fun c => df.columns.contains c) = true)
    (hrows : df.rows ≠ []) :
    (compute_backbone_network (.ok df) alpha np "disparity").backbone
        = disparity_filter_parallel df.rows alpha np ∧
    ∀ node : String, 2 ≤ nodeDegree node df.rows →
      nodeTotalWeight node df.rows ≠ 0 →
      ∀ e : BEdge,
        e ∈ process_node_disparity node df.rows alpha ↔
          ∃ r ∈ neighborRows node df.rows,
            (r.weight / nodeTotalWeight node df.rows)
                ^ (nodeDegree node df.rows - 1) < alpha ∧
            canonEdge r.source r.target r.weight = e := by
  constructor
  · simp only [compute_backbone_network]
    rw [if_neg (not_not_intro hcols), if_neg hrows, if_pos trivial]
  · intro node hdeg hW e
    rw [mem_process_node_disparity]
    have hg : ¬ (nodeDegree node df.rows < 2 ∨ nodeTotalWeight node df.rows = 0) := by
      push_neg
      exact ⟨by omega, hW⟩
    constructor
    · rintro ⟨-, -, r, hrn, halpha, hc⟩
      refine ⟨r, hrn, ?_, hc⟩
      unfold calculate_disparity_alpha at halpha
      rwa [if_neg hg] at halpha
    · rintro ⟨r, hrn, halpha, hc⟩
      refine ⟨hW, hdeg, r, hrn, ?_, hc⟩
      unfold calculate_disparity_alpha
      rwa [if_neg hg]

/-- Witness for C1 on the three-edge star graph read with all three columns
present, at the default threshold 1/20. -/
theorem compute_backbone_disparity_witness :
    requiredColumns.all
        (fun c => (["source", "target", "weight"] : List String).contains c) = true ∧
    ([(⟨"a", "b", 1⟩ : Row), ⟨"a", "c", 1⟩, ⟨"a", "d", 8⟩] : List Row) ≠ [] ∧
    ((compute_backbone_network
          (.ok ⟨["source", "target", "weight"],
            [⟨"a", "b", 1⟩, ⟨"a", "c", 1⟩, ⟨"a", "d", 8⟩]⟩)
          (1/20) none "disparity").backbone
        = disparity_filter_parallel
            [⟨"a", "b", 1⟩, ⟨"a", "c", 1⟩, ⟨"a", "d", 8⟩] (1/20) none ∧
      ∀ node : String,
        2 ≤ nodeDegree node [⟨"a", "b", 1⟩, ⟨"a", "c", 1⟩, ⟨"a", "d", 8⟩] →
        nodeTotalWeight node [⟨"a", "b", 1⟩, ⟨"a", "c", 1⟩, ⟨"a", "d", 8⟩] ≠ 0 →
        ∀ e : BEdge,
          e ∈ process_node_disparity node
              [⟨"a", "b", 1⟩, ⟨"a", "c", 1⟩, ⟨"a", "d", 8⟩] (1/20) ↔
            ∃ r ∈ neighborRows node [⟨"a", "b", 1⟩, ⟨"a", "c", 1⟩, ⟨"a", "d", 8⟩],
              (r.weight / nodeTotalWeight node
                    [⟨"a", "b", 1⟩, ⟨"a", "c", 1⟩, ⟨"a", "d", 8⟩])
                  ^ (nodeDegree node [⟨"a", "b", 1⟩, ⟨"a", "c", 1⟩, ⟨"a", "d", 8⟩] - 1)
                < 1/20 ∧
              canonEdge r.source r.target r.weight = e) :=
  ⟨by decide, by decide,
    compute_backbone_disparity
      ⟨["source", "target", "weight"], [⟨"a", "b", 1⟩, ⟨"a", "c", 1⟩, ⟨"a", "d", 8⟩]⟩
      (1/20) none (by decide) (by decide)⟩

/-- Claim C8: a read failure, missing required columns, or an empty input
each make `compute_backbone_network` return an empty backbone together with
a diagnostic message instead of raising; the empty input produces the soft
warning message specifically. -/
theorem compute_backbone_error_paths (alpha : ℚ) (np : Option ℕ) (ft : String)
    (df : CsvFrame) (msg : String) :
    ((compute_backbone_network (.error msg) alpha np ft).backbone = ∅ ∧
      ((compute_backbone_network (.error msg) alpha np ft).diagnostic).isSome = true) ∧
    (requiredColumns.all (fun c => df.columns.contains c) = false →
      (compute_backbone_network (.ok df) alpha np ft).backbone = ∅ ∧
      ((compute_backbone_network (.ok df) alpha np ft).diagnostic).isSome = true) ∧
    (requiredColumns.all (fun c => df.columns.contains c) = true → df.rows = [] →
      (compute_backbone_network (.ok df) alpha np ft).backbone = ∅ ∧
      (compute_backbone_network (.ok df) alpha np ft).diagnostic
          = some "Warning: Input CSV file is empty.") := by
  refine ⟨⟨rfl, rfl⟩, ?_, ?_⟩
  · intro hcols
    have h : ¬ requiredColumns.all (fun c => df.columns.contains c) = true := by
      rw [hcols]
      decide
    simp only [compute_backbone_network]
    rw [if_pos h]
    exact ⟨rfl, rfl⟩
  · intro hcols hempty
    simp only [compute_backbone_network]
    rw [if_neg (not_not_intro hcols), if_pos hempty]
    exact ⟨rfl, rfl⟩

/-- Witness for C8: a failed read, a frame missing the weight column, and an
empty well-columned frame. -/
theorem compute_backbone_error_paths_witness :
    ((compute_backbone_network (.error "file not found") (1/20) none "ncdf").backbone = ∅ ∧
      ((compute_backbone_network (.error "file not found") (1/20) none "ncdf").diagnostic).isSome
        = true) ∧
    ((compute_backbone_network (.ok ⟨["source", "target"], [⟨"a", "b", 1⟩]⟩)
          (1/20) none "ncdf").backbone = ∅ ∧
      ((compute_backbone_network (.ok ⟨["source", "target"], [⟨"a", "b", 1⟩]⟩)
            (1/20) none "ncdf").diagnostic).isSome = true) ∧
    ((compute_backbone_network (.ok ⟨["source", "target", "weight"], []⟩)
          (1/20) none "ncdf").backbone = ∅ ∧
      (compute_backbone_network (.ok ⟨["source", "target", "weight"], []⟩)
          (1/20) none "ncdf").diagnostic = some "Warning: Input CSV file is empty.") :=
  ⟨(compute_backbone_error_paths (1/20) none "ncdf"
      ⟨["source", "target"], [⟨"a", "b", 1⟩]⟩ "file not found").1,
    (compute_backbone_error_paths (1/20) none "ncdf"
      ⟨["source", "target"], [⟨"a", "b", 1⟩]⟩ "file not found").2.1 (by decide),
    (compute_backbone_error_paths (1/20) none "ncdf"
      ⟨["source", "target", "weight"], []⟩ "file not found").2.2 (by decide) rfl⟩

end RedditCascade
